import Mathlib

/-!
Verification development for the hr-pong-scraper repository.

The definitions below are a shallow embedding of the Python sources:
  - hardrock_scraper/models.py        (data model)
  - hardrock_scraper/cosmos_client.py (change-tracked store)
  - hardrock_scraper/parser.py        (entity extractor)
  - hardrock_scraper/scraper.py       (refresh scheduler)

Timestamps (datetime.now().isoformat()) are modelled as explicit String
arguments.  The Cosmos container is modelled as a partial map from the
partition key match_id to the stored document.  Python dictionaries that
carry a fixed field set are modelled as structures.
-/

namespace HardRock

/-- MatchStatus enum from models.py lines 9-12. -/
inductive MatchStatus where
  | live
  | upcoming
  | ended
deriving DecidableEq, Repr

/-- Enum value strings: LIVE = "live", UPCOMING = "upcoming", ENDED = "ended". -/
def MatchStatus.value : MatchStatus → String
  | .live => "live"
  | .upcoming => "upcoming"
  | .ended => "ended"

/-- Player dataclass from models.py lines 15-23.  Its to_dict image (models.py
lines 83-92) carries exactly the same three fields, so one structure serves
for both the dataclass and its serialized form. -/
structure Player where
  name : String
  ranking : Option Int := none
  country : Option String := none
deriving DecidableEq, Repr

/-- Score dataclass from models.py lines 26-34; its dict form (models.py
lines 94-98) has the same three fields. -/
structure Score where
  current_set : Int
  set_scores : List String
  total_games : Option String := none
deriving DecidableEq, Repr

/-- Odds dataclass from models.py lines 37-52; the timestamp field is the
already-serialized isoformat string (post_init fills it at construction
time), matching the dict form of models.py lines 99-109. -/
structure Odds where
  player1_moneyline : Option String := none
  player2_moneyline : Option String := none
  handicap_line : Option String := none
  player1_handicap : Option String := none
  player2_handicap : Option String := none
  over_under_line : Option String := none
  over_odds : Option String := none
  under_odds : Option String := none
  timestamp : Option String := none
deriving DecidableEq, Repr

/-- Match dataclass from models.py lines 55-113, with players, score and odds
kept in their (field-identical) serialized forms. -/
structure Match where
  match_id : String
  player1 : Player
  player2 : Player
  status : MatchStatus
  score : Option Score := none
  odds : Option Odds := none
  start_time : Option String := none
  league : Option String := none
  tournament : Option String := none
deriving DecidableEq, Repr

/-- Match.is_live from models.py lines 68-69. -/
def Match.is_live (m : Match) : Bool :=
  m.status = MatchStatus.live

/-- Score-history entry shape appended by cosmos_client.py lines 242-247 and
298-301: timestamp plus the three score fields. -/
structure ScoreHistEntry where
  timestamp : String
  current_set : Int
  set_scores : List String
  total_games : Option String
deriving DecidableEq, Repr

/-- Odds-history entry shape appended by cosmos_client.py lines 250-260 and
318-321: timestamp plus the eight price/line fields. -/
structure OddsHistEntry where
  timestamp : String
  player1_moneyline : Option String
  player2_moneyline : Option String
  handicap_line : Option String
  player1_handicap : Option String
  player2_handicap : Option String
  over_under_line : Option String
  over_odds : Option String
  under_odds : Option String
deriving DecidableEq, Repr

/-- Status-history entry shape appended by cosmos_client.py lines 262-265 and
326-329. -/
structure StatusHistEntry where
  timestamp : String
  status : String
deriving DecidableEq, Repr

/-- Cosmos document for one match: Match.to_dict fields plus the Cosmos
specific fields and the three history arrays (cosmos_client.py lines 221-267). -/
structure MatchDoc where
  id : String
  match_id : String
  created_at : String
  last_updated : String
  scrape_source : String
  player1 : Player
  player2 : Player
  status : String
  score : Option Score
  odds : Option Odds
  start_time : Option String
  league : Option String
  tournament : Option String
  score_history : List ScoreHistEntry
  odds_history : List OddsHistEntry
  status_history : List StatusHistEntry
deriving DecidableEq, Repr

/-- History entry built from a Score snapshot (cosmos_client.py lines 242-247,
290-301). -/
def score_entry (now : String) (s : Score) : ScoreHistEntry :=
  ⟨now, s.current_set, s.set_scores, s.total_games⟩

/-- History entry built from an Odds snapshot: the eight price/line fields,
never the Odds observation timestamp (cosmos_client.py lines 250-260, 305-321). -/
def odds_entry (now : String) (o : Odds) : OddsHistEntry :=
  ⟨now, o.player1_moneyline, o.player2_moneyline, o.handicap_line,
   o.player1_handicap, o.player2_handicap, o.over_under_line,
   o.over_odds, o.under_odds⟩

/-- Predicate _score_changed from cosmos_client.py lines 342-346: the stored
entry differs from the incoming snapshot on current_set, set_scores or
total_games; the timestamp field is not compared. -/
def score_changed (old : ScoreHistEntry) (cur : Score) : Bool :=
  old.current_set != cur.current_set ||
  old.set_scores != cur.set_scores ||
  old.total_games != cur.total_games

/-- Predicate _odds_changed from cosmos_client.py lines 348-357: any of the
eight price/line fields differs; the timestamp field is not compared. -/
def odds_changed (old : OddsHistEntry) (cur : Odds) : Bool :=
  old.player1_moneyline != cur.player1_moneyline ||
  old.player2_moneyline != cur.player2_moneyline ||
  old.handicap_line != cur.handicap_line ||
  old.player1_handicap != cur.player1_handicap ||
  old.player2_handicap != cur.player2_handicap ||
  old.over_under_line != cur.over_under_line ||
  old.over_odds != cur.over_odds ||
  old.under_odds != cur.under_odds

/-- History cap max_history_entries from cosmos_client.py line 332. -/
def max_history_entries : Nat := 100

/-- Python slice l[-max:] applied only when the list exceeds the cap
(cosmos_client.py lines 331-338). -/
def trimHist {α : Type} (l : List α) : List α :=
  if l.length > max_history_entries then l.drop (l.length - max_history_entries) else l

/-- Score-history block of _update_match_with_history (cosmos_client.py lines
289-301): append a fresh entry when the history is empty or _score_changed
holds against the last entry. -/
def append_score_history (now : String) (hist : List ScoreHistEntry) (s : Score) :
    List ScoreHistEntry :=
  match hist.getLast? with
  | none => hist ++ [score_entry now s]
  | some last => if score_changed last s then hist ++ [score_entry now s] else hist

/-- Odds-history block of _update_match_with_history (cosmos_client.py lines
304-321). -/
def append_odds_history (now : String) (hist : List OddsHistEntry) (o : Odds) :
    List OddsHistEntry :=
  match hist.getLast? with
  | none => hist ++ [odds_entry now o]
  | some last => if odds_changed last o then hist ++ [odds_entry now o] else hist

/-- Status-history block of _update_match_with_history (cosmos_client.py lines
323-329): append when the history is empty or the last status string differs. -/
def append_status_history (now : String) (hist : List StatusHistEntry) (st : String) :
    List StatusHistEntry :=
  match hist.getLast? with
  | none => hist ++ [⟨now, st⟩]
  | some last => if last.status != st then hist ++ [⟨now, st⟩] else hist

/-- Document creation _match_to_document from cosmos_client.py lines 221-267:
Match.to_dict plus Cosmos fields, history arrays seeded with one entry per
present facet (status always present). -/
def match_to_document (now : String) (m : Match) : MatchDoc :=
  { id := m.match_id
    match_id := m.match_id
    created_at := now
    last_updated := now
    scrape_source := "hardrock"
    player1 := m.player1
    player2 := m.player2
    status := m.status.value
    score := m.score
    odds := m.odds
    start_time := m.start_time
    league := m.league
    tournament := m.tournament
    score_history := match m.score with
      | some s => [score_entry now s]
      | none => []
    odds_history := match m.odds with
      | some o => [odds_entry now o]
      | none => []
    status_history := [⟨now, m.status.value⟩] }

/-- Document update _update_match_with_history from cosmos_client.py lines
269-340: current snapshot fields come from the new match, Cosmos identity
fields are carried forward, each history is conditionally appended to and
then trimmed to the cap. -/
def update_match_with_history (now : String) (existing : MatchDoc) (m : Match) : MatchDoc :=
  { id := existing.id
    match_id := existing.match_id
    created_at := existing.created_at
    last_updated := now
    scrape_source := existing.scrape_source
    player1 := m.player1
    player2 := m.player2
    status := m.status.value
    score := m.score
    odds := m.odds
    start_time := m.start_time
    league := m.league
    tournament := m.tournament
    score_history := trimHist (match m.score with
      | some s => append_score_history now existing.score_history s
      | none => existing.score_history)
    odds_history := trimHist (match m.odds with
      | some o => append_odds_history now existing.odds_history o
      | none => existing.odds_history)
    status_history := trimHist (append_status_history now existing.status_history m.status.value) }

/-- Cosmos container contents, keyed by the partition key match_id. -/
def Store : Type := String → Option MatchDoc

/-- Lookup get_match from cosmos_client.py lines 105-113 (read_item by id and
partition key; a read failure surfaces as none). -/
def get_match (store : Store) (match_id : String) : Option MatchDoc :=
  store match_id

/-- Upsert_item: the document replaces whatever is stored under its
match_id key. -/
def upsert_item (store : Store) (doc : MatchDoc) : Store :=
  fun k => if k = doc.match_id then some doc else store k

/-- Per-match body of the store_matches loop (cosmos_client.py lines 84-96):
read the existing document, update it with history or create a fresh one,
then upsert. -/
def store_one (now : String) (store : Store) (m : Match) : Store :=
  match get_match store m.match_id with
  | some existing => upsert_item store (update_match_with_history now existing m)
  | none => upsert_item store (match_to_document now m)

/-- Batch loop store_matches from cosmos_client.py lines 70-103.  A per-item
CosmosHttpResponseError is modelled by the oracle fails: a failing item
leaves the store untouched and is not counted, and the loop continues with
the remaining matches. -/
def store_matches (now : String) (fails : Match → Bool) :
    Store → List Match → Store × Nat
  | store, [] => (store, 0)
  | store, m :: rest =>
    if fails m then
      store_matches now fails store rest
    else
      let store' := store_one now store m
      let r := store_matches now fails store' rest
      (r.1, r.2 + 1)

/-- Repeated single-match merges (store_matches called with a singleton batch
once per observation), each with its own timestamp; used to state the
history-cap property. -/
def merge_seq (m : Match) : Store → List (String × Odds) → Store
  | store, [] => store
  | store, (t, o) :: rest =>
      merge_seq m (store_one t store { m with odds := some o }) rest

/-! Entity extractor (parser.py).  An HTML element is pre-resolved into the
texts and class flags the extractor reads; CSS selection becomes list
filtering over those flags. -/

/-- Element inside a score container ('.scoreContainer' descendant): its
stripped text and whether it carries the score / mainScore CSS classes. -/
structure ScoreElem where
  text : String
  score : Bool
  mainScore : Bool
deriving DecidableEq, Repr

/-- One '.scoreContainer' element with its score sub-elements. -/
structure ScoreContainer where
  elems : List ScoreElem
deriving DecidableEq, Repr

/-- Match container as the extractor reads it: attribute map (container.get),
presence of a '.live-icon' descendant, stripped text of the
'.game-time-status' descendant, the '.scoreContainer' descendants, the
data-tooltip-id attribute values of the '[data-tooltip-id]' descendants in
document order, and the container's visible text (get_text). -/
structure Container where
  attrs : String → Option String
  live_icon : Bool
  game_time_status : Option String
  score_containers : List ScoreContainer
  tooltip_ids : List String
  text : String

/-- Python substring test (needle in hay). -/
def strContains (hay needle : String) : Bool :=
  (List.range (hay.toList.length + 1)).any
    (fun i => needle.toList.isPrefixOf (hay.toList.drop i))

/-- Python str.isdigit restricted to ASCII: nonempty and all characters are
digits. -/
def pyIsdigit (s : String) : Bool :=
  !s.toList.isEmpty && s.toList.all Char.isDigit

/-- Python s.split('-')[0]: the prefix of s before its first dash (all of s
when no dash occurs). -/
def splitDashHead (s : String) : String :=
  String.mk (s.toList.takeWhile (fun ch => ch != '-'))

/-- Value of int(re.search(r'(\d+)', s).group(1)): the first maximal digit run
of s, absent when s has no digit. -/
def firstDigitRun (s : String) : Option Nat :=
  let run := (s.toList.dropWhile (fun ch => !ch.isDigit)).takeWhile Char.isDigit
  if run.isEmpty then none
  else some (run.foldl (fun acc ch => acc * 10 + (ch.toNat - 48)) 0)

/-- Identifier extraction _extract_match_id from parser.py lines 111-131.
Python truthiness of container.get(attr) makes an attribute carrying the
empty string fall through to the next source.  The pyhash parameter stands
for Python's builtin hash. -/
def extract_match_id (pyhash : String → Int) (c : Container) : String :=
  match ["data-match-id", "data-event-id", "data-game-id", "id"].findSome?
      (fun a => match c.attrs a with
        | some v => if v = "" then none else some v
        | none => none) with
  | some v => v
  | none =>
    let fallback_id := (toString (pyhash c.text)).take 10
    match c.tooltip_ids with
    | [] => fallback_id
    | tid :: _ =>
      if tid != "" && strContains tid "-" then
        let mid := splitDashHead tid
        if pyIsdigit mid then mid else fallback_id
      else fallback_id

/-- Status extraction _extract_match_status from parser.py lines 168-195:
live icon, else segment/game keyword in the status text, else any digit
score value other than "0", else upcoming. -/
def extract_match_status (c : Container) : MatchStatus :=
  if c.live_icon then
    .live
  else if (match c.game_time_status with
      | some t => strContains t.toLower "set" || strContains t.toLower "game"
      | none => false) then
    .live
  else if c.score_containers.any (fun sc =>
      ((sc.elems.filter (fun e => e.score)).map (fun e => e.text)).any
        (fun v => pyIsdigit v && v != "0")) then
    .live
  else
    .upcoming

/-- Texts of the '.score:not(.mainScore)' elements of one score container
(parser.py lines 216-219). -/
def segment_texts (sc : ScoreContainer) : List String :=
  (sc.elems.filter (fun e => e.score && !e.mainScore)).map (fun e => e.text)

/-- Loop of parser.py lines 224-230: for i in range(max_sets), pad the
missing side with "0" via the conditional index access, emit
"score1-score2" unless both are "0". -/
def range_segment_scores (s1 s2 : List String) : List String :=
  (List.range (max s1.length s2.length)).filterMap (fun i =>
    let score1 := s1.getD i "0"
    let score2 := s2.getD i "0"
    if score1 != "0" || score2 != "0" then some (score1 ++ "-" ++ score2) else none)

/-- Score extraction _extract_score from parser.py lines 197-255.  The
main_scores collected on lines 209-213 never flow into the returned Score
and are omitted.  The int() parse failure on line 244 is the none case of
firstDigitRun. -/
def extract_score (c : Container) : Option Score :=
  match c.score_containers.map segment_texts with
  | s1 :: s2 :: _ =>
    let set_scores := range_segment_scores s1 s2
    if set_scores.isEmpty then none
    else
      let current_set : Int := set_scores.length
      let current_set := match c.game_time_status with
        | some txt =>
          if strContains txt.toLower "set" then
            match firstDigitRun txt with
            | some n => (n : Int)
            | none => current_set
          else current_set
        | none => current_set
      some { current_set := current_set, set_scores := set_scores, total_games := none }
  | _ => none

/-- Sub-extractors whose outputs only populate entity fields that no verified
property constrains: _extract_players (parser.py lines 133-166),
_extract_odds (lines 257-298), _extract_start_time (lines 300-318) and
_extract_league (lines 320-334).  They are kept abstract and universally
quantified in every theorem about the parse pipeline. -/
structure SubExtractors where
  extract_players : Container → List Player
  extract_odds : Container → Option Odds
  extract_start_time : Container → Option String
  extract_league : Container → Option String

/-- Per-container parse _parse_match_container from parser.py lines 71-109:
none when the container does not yield exactly two players, otherwise a
Match whose score is computed only for live status and whose tournament
field is left unset. -/
def parse_match_container (ex : SubExtractors) (pyhash : String → Int)
    (c : Container) : Option Match :=
  let mid := extract_match_id pyhash c
  match ex.extract_players c with
  | [p1, p2] =>
    let status := extract_match_status c
    some { match_id := mid
           player1 := p1
           player2 := p2
           status := status
           score := if status = .live then extract_score c else none
           odds := ex.extract_odds c
           start_time := ex.extract_start_time c
           league := ex.extract_league c
           tournament := none }
  | _ => none

/-- Container handed to _parse_match_container: either a well-formed record of
the fields the extractor reads, or one on which the underlying DOM
operations raise (the ParseError re-raised on parser.py line 109). -/
inductive ContainerB where
  | good (c : Container)
  | bad (msg : String)

/-- Per-container parse outcome including the exceptional path. -/
def parse_match_containerB (ex : SubExtractors) (pyhash : String → Int) :
    ContainerB → Except String (Option Match)
  | .good c => .ok (parse_match_container ex pyhash c)
  | .bad msg => .error msg

/-- Selector results of one document: the primary '.hr-market-view' selection
and the ordered fallback selections of parser.py lines 54-60. -/
structure Soup where
  primary : List ContainerB
  fallbacks : List (List ContainerB)

/-- Container discovery _find_match_containers from parser.py lines 44-69:
primary selection when nonempty, else the first nonempty fallback
selection, else the empty list. -/
def find_match_containers (s : Soup) : List ContainerB :=
  if !s.primary.isEmpty then s.primary
  else
    match s.fallbacks.find? (fun l => !l.isEmpty) with
    | some l => l
    | none => []

/-- Loop body of parse_html (parser.py lines 29-37): per-container failures
are swallowed and parsing continues; only successfully parsed, non-skipped
matches are collected. -/
def collect_matches (ex : SubExtractors) (pyhash : String → Int)
    (l : List ContainerB) : List Match :=
  l.filterMap (fun cb =>
    match parse_match_containerB ex pyhash cb with
    | .error _ => none
    | .ok r => r)

/-- Top-level parse_html from parser.py lines 20-42.  The argument is the
outcome of parsing the whole markup into a document: a document-level
failure becomes ParseError, otherwise every discovered container is parsed
with per-container failures skipped. -/
def parse_html (ex : SubExtractors) (pyhash : String → Int)
    (sp : Except String Soup) : Except String (List Match) :=
  match sp with
  | .error e => .error ("Failed to parse HTML content: " ++ e)
  | .ok s => .ok (collect_matches ex pyhash (find_match_containers s))

/-- Interval selection _get_refresh_interval from scraper.py lines 173-183. -/
def get_refresh_interval (live_refresh_interval upcoming_refresh_interval : Nat)
    (last_matches : List Match) : Nat :=
  if last_matches.isEmpty then upcoming_refresh_interval
  else if last_matches.any (fun m => m.is_live) then live_refresh_interval
  else upcoming_refresh_interval

/-- Specification-side formulation for the score-formatting claim, written
from the spec's words: zip the two participants' segment sequences
position-wise (padding the shorter side with "0"), omitting a position
where both sides are "0". -/
def zip_segment_scores (s1 s2 : List String) : List String :=
  ((s1 ++ List.replicate (max s1.length s2.length - s1.length) "0").zip
   (s2 ++ List.replicate (max s1.length s2.length - s2.length) "0")).filterMap
    (fun p => if p.1 = "0" ∧ p.2 = "0" then none else some (p.1 ++ "-" ++ p.2))

/-- Eight-field comparison of two Odds snapshots, agreeing with odds_changed
on entries built by odds_entry. -/
def odds_differ (a b : Odds) : Bool :=
  a.player1_moneyline != b.player1_moneyline ||
  a.player2_moneyline != b.player2_moneyline ||
  a.handicap_line != b.handicap_line ||
  a.player1_handicap != b.player1_handicap ||
  a.player2_handicap != b.player2_handicap ||
  a.over_under_line != b.over_under_line ||
  a.over_odds != b.over_odds ||
  a.under_odds != b.under_odds

/-- All texts of '.score'-class elements across the score containers, in
document order: the values the status heuristic inspects. -/
def container_score_values (c : Container) : List String :=
  (c.score_containers.map (fun sc =>
    (sc.elems.filter (fun e => e.score)).map (fun e => e.text))).flatten

/-! Concrete values used to instantiate the proved properties. -/

/-- Sample match with both optional facets present. -/
def mEx : Match :=
  { match_id := "619477862109151478"
    player1 := { name := "Ma Long" }
    player2 := { name := "Fan Zhendong" }
    status := .live
    score := some { current_set := 2, set_scores := ["11-7", "8-11"] }
    odds := some { player1_moneyline := some "-120", player2_moneyline := some "+100",
                   timestamp := some "2024-01-01T00:00:00" }
    league := some "WTT" }

/-- Store with no documents. -/
def emptyStore : Store := fun _ => none

/-- Timestamps for 150 merges. -/
def tsEx : List String := List.replicate 150 "t"

/-- 150 odds observations, each differing from its predecessor in the
player1 moneyline. -/
def osEx : List Odds := (List.range 150).map (fun i => { player1_moneyline := some (toString i) })

/-- Executable check that consecutive odds observations differ. -/
def chainDiffer : List Odds → Bool
  | [] => true
  | [_] => true
  | a :: b :: rest => odds_differ a b && chainDiffer (b :: rest)

/-- Container with a live indicator and a zero-only score. -/
def cLiveIconEx : Container :=
  { attrs := fun _ => none
    live_icon := true
    game_time_status := none
    score_containers := [⟨[⟨"0", true, false⟩, ⟨"0", true, false⟩]⟩]
    tooltip_ids := []
    text := "" }

/-- Container with neither indicator nor keyword and a zero-only score. -/
def cZeroEx : Container :=
  { attrs := fun _ => none
    live_icon := false
    game_time_status := none
    score_containers := [⟨[⟨"0", true, false⟩, ⟨"0", true, false⟩]⟩]
    tooltip_ids := []
    text := "" }

/-- Container whose data-match-id attribute is present but empty (as produced
by markup like data-match-id="") while a nested pricing control carries a
tooltip-embedded numeric ID. -/
def cEmptyAttrEx : Container :=
  { attrs := fun a => if a = "data-match-id" then some "" else none
    live_icon := false
    game_time_status := none
    score_containers := []
    tooltip_ids := ["123-456"]
    text := "x" }

/-- Live container whose two score containers carry main scores plus the
per-segment sequences ["6","3"] and ["4","6"]. -/
def cScoreEx : Container :=
  { attrs := fun _ => none
    live_icon := true
    game_time_status := none
    score_containers :=
      [⟨[⟨"2", true, true⟩, ⟨"6", true, false⟩, ⟨"3", true, false⟩]⟩,
       ⟨[⟨"1", true, true⟩, ⟨"4", true, false⟩, ⟨"6", true, false⟩]⟩]
    tooltip_ids := []
    text := "" }

/-- Sub-extractors that always see the two players A and B and nothing else. -/
def exW : SubExtractors :=
  { extract_players := fun _ => [{ name := "A" }, { name := "B" }]
    extract_odds := fun _ => none
    extract_start_time := fun _ => none
    extract_league := fun _ => none }

/-- Entity produced by parsing the live-indicator container under exW: the
identifier falls back to the text hash (hash 0 stringified). -/
def mW : Match :=
  { match_id := "0"
    player1 := { name := "A" }
    player2 := { name := "B" }
    status := .live
    score := none
    odds := none
    start_time := none
    league := none
    tournament := none }

/-- Container with a regular data-match-id attribute and a tooltip ID. -/
def cAttrEx : Container :=
  { attrs := fun a => if a = "data-match-id" then some "42" else none
    live_icon := false
    game_time_status := none
    score_containers := []
    tooltip_ids := ["123-456"]
    text := "x" }

/-! Helper lemmas about the history trim. -/

theorem trimHist_of_le {α : Type} {l : List α} (h : l.length ≤ max_history_entries) :
    trimHist l = l := by
  unfold trimHist
  rw [if_neg]
  omega

theorem trimHist_length_le {α : Type} (l : List α) :
    (trimHist l).length ≤ max_history_entries := by
  unfold trimHist
  split
  · rw [List.length_drop]
    omega
  · omega

theorem getLast?_drop_of_lt {α : Type} :
    ∀ (l : List α) (k : Nat), k < l.length → (l.drop k).getLast? = l.getLast?
  | [], k, h => by simp at h
  | _ :: _, 0, _ => rfl
  | a :: t, k + 1, h => by
    have ht : k < t.length := by simpa using h
    rw [List.drop_succ_cons, getLast?_drop_of_lt t k ht]
    match t, ht with
    | b :: t', _ => rw [List.getLast?_cons_cons]

theorem trimHist_getLast? {α : Type} (l : List α) :
    (trimHist l).getLast? = l.getLast? := by
  have hpos : 0 < max_history_entries := by decide
  unfold trimHist
  split
  · exact getLast?_drop_of_lt l _ (by omega)
  · rfl

theorem trimHist_eq_drop {α : Type} (l : List α) :
    trimHist l = l.drop (l.length - max_history_entries) := by
  unfold trimHist
  split
  · rfl
  · have h : l.length - max_history_entries = 0 := by omega
    rw [h, List.drop_zero]

theorem trimHist_append_singleton {α : Type} (l : List α) (e : α) :
    trimHist (trimHist l ++ [e]) = trimHist (l ++ [e]) := by
  have hpos : 0 < max_history_entries := by decide
  rw [trimHist_eq_drop l]
  by_cases h : l.length ≤ max_history_entries
  · have hk : l.length - max_history_entries = 0 := by omega
    rw [hk, List.drop_zero]
  · have hmax : max_history_entries < l.length := by omega
    rw [trimHist_eq_drop (l.drop (l.length - max_history_entries) ++ [e]),
        trimHist_eq_drop (l ++ [e])]
    have hlen : (l.drop (l.length - max_history_entries)).length = max_history_entries := by
      rw [List.length_drop]
      omega
    have h1 : (l.drop (l.length - max_history_entries) ++ [e]).length
        - max_history_entries = 1 := by
      rw [List.length_append, hlen]
      simp
    have h2 : (l ++ [e]).length - max_history_entries
        = (l.length - max_history_entries) + 1 := by
      rw [List.length_append]
      simp
      omega
    rw [h1, h2]
    rw [List.drop_append_of_le_length (by rw [hlen]; omega),
        List.drop_append_of_le_length (by omega)]
    rw [List.drop_drop]

/-! Store invariants: after any merge the stored document is up to date with
the merged match, so an immediately repeated merge appends nothing. -/

theorem score_changed_entry (t : String) (s : Score) :
    score_changed (score_entry t s) s = false := by
  simp [score_changed, score_entry]

theorem odds_changed_entry (t : String) (o : Odds) :
    odds_changed (odds_entry t o) o = false := by
  simp [odds_changed, odds_entry]

/-- Document state that makes a merge of m a no-op for all three histories:
each present facet of m compares unchanged against the last history entry,
and every history is within the cap. -/
def doc_fresh (d : MatchDoc) (m : Match) : Prop :=
  (∀ s, m.score = some s →
    ∃ last, d.score_history.getLast? = some last ∧ score_changed last s = false) ∧
  (∀ o, m.odds = some o →
    ∃ last, d.odds_history.getLast? = some last ∧ odds_changed last o = false) ∧
  (∃ last, d.status_history.getLast? = some last ∧ last.status = m.status.value) ∧
  d.score_history.length ≤ max_history_entries ∧
  d.odds_history.length ≤ max_history_entries ∧
  d.status_history.length ≤ max_history_entries

theorem match_to_document_fresh (now : String) (m : Match) :
    doc_fresh (match_to_document now m) m := by
  refine ⟨?_, ?_, ?_, ?_, ?_, ?_⟩
  · intro s hs
    refine ⟨score_entry now s, ?_, score_changed_entry now s⟩
    simp [match_to_document, hs]
  · intro o ho
    refine ⟨odds_entry now o, ?_, odds_changed_entry now o⟩
    simp [match_to_document, ho]
  · exact ⟨⟨now, m.status.value⟩, by simp [match_to_document], rfl⟩
  · cases hs : m.score <;> simp [match_to_document, hs, max_history_entries]
  · cases ho : m.odds <;> simp [match_to_document, ho, max_history_entries]
  · simp [match_to_document, max_history_entries]

theorem append_score_history_none (now : String) (hist : List ScoreHistEntry)
    (s : Score) (h : hist.getLast? = none) :
    append_score_history now hist s = hist ++ [score_entry now s] := by
  unfold append_score_history
  rw [h]

theorem append_score_history_some (now : String) (hist : List ScoreHistEntry)
    (s : Score) (last : ScoreHistEntry) (h : hist.getLast? = some last) :
    append_score_history now hist s =
      if score_changed last s then hist ++ [score_entry now s] else hist := by
  unfold append_score_history
  rw [h]

theorem append_odds_history_none (now : String) (hist : List OddsHistEntry)
    (o : Odds) (h : hist.getLast? = none) :
    append_odds_history now hist o = hist ++ [odds_entry now o] := by
  unfold append_odds_history
  rw [h]

theorem append_odds_history_some (now : String) (hist : List OddsHistEntry)
    (o : Odds) (last : OddsHistEntry) (h : hist.getLast? = some last) :
    append_odds_history now hist o =
      if odds_changed last o then hist ++ [odds_entry now o] else hist := by
  unfold append_odds_history
  rw [h]

theorem append_status_history_none (now : String) (hist : List StatusHistEntry)
    (st : String) (h : hist.getLast? = none) :
    append_status_history now hist st = hist ++ [⟨now, st⟩] := by
  unfold append_status_history
  rw [h]

theorem append_status_history_some (now : String) (hist : List StatusHistEntry)
    (st : String) (last : StatusHistEntry) (h : hist.getLast? = some last) :
    append_status_history now hist st =
      if last.status != st then hist ++ [⟨now, st⟩] else hist := by
  unfold append_status_history
  rw [h]

theorem append_score_history_getLast (now : String) (hist : List ScoreHistEntry)
    (s : Score) :
    ∃ last, (append_score_history now hist s).getLast? = some last ∧
      score_changed last s = false := by
  cases hh : hist.getLast? with
  | none =>
    rw [append_score_history_none now hist s hh]
    exact ⟨score_entry now s, by simp, score_changed_entry now s⟩
  | some last =>
    rw [append_score_history_some now hist s last hh]
    by_cases hc : score_changed last s
    · rw [if_pos hc]
      exact ⟨score_entry now s, by simp, score_changed_entry now s⟩
    · rw [if_neg hc]
      exact ⟨last, hh, by simpa using hc⟩

theorem append_odds_history_getLast (now : String) (hist : List OddsHistEntry)
    (o : Odds) :
    ∃ last, (append_odds_history now hist o).getLast? = some last ∧
      odds_changed last o = false := by
  cases hh : hist.getLast? with
  | none =>
    rw [append_odds_history_none now hist o hh]
    exact ⟨odds_entry now o, by simp, odds_changed_entry now o⟩
  | some last =>
    rw [append_odds_history_some now hist o last hh]
    by_cases hc : odds_changed last o
    · rw [if_pos hc]
      exact ⟨odds_entry now o, by simp, odds_changed_entry now o⟩
    · rw [if_neg hc]
      exact ⟨last, hh, by simpa using hc⟩

theorem append_status_history_getLast (now : String) (hist : List StatusHistEntry)
    (st : String) :
    ∃ last, (append_status_history now hist st).getLast? = some last ∧
      last.status = st := by
  cases hh : hist.getLast? with
  | none =>
    rw [append_status_history_none now hist st hh]
    exact ⟨⟨now, st⟩, by simp, rfl⟩
  | some last =>
    rw [append_status_history_some now hist st last hh]
    by_cases hc : last.status != st
    · rw [if_pos hc]
      exact ⟨⟨now, st⟩, by simp, rfl⟩
    · rw [if_neg hc]
      exact ⟨last, hh, by simpa using hc⟩

theorem update_match_with_history_fresh (now : String) (d : MatchDoc) (m : Match) :
    doc_fresh (update_match_with_history now d m) m := by
  refine ⟨?_, ?_, ?_, trimHist_length_le _, trimHist_length_le _, trimHist_length_le _⟩
  · intro s hs
    obtain ⟨last, hl, hc⟩ := append_score_history_getLast now d.score_history s
    refine ⟨last, ?_, hc⟩
    simp only [update_match_with_history, hs]
    rw [trimHist_getLast?]
    exact hl
  · intro o ho
    obtain ⟨last, hl, hc⟩ := append_odds_history_getLast now d.odds_history o
    refine ⟨last, ?_, hc⟩
    simp only [update_match_with_history, ho]
    rw [trimHist_getLast?]
    exact hl
  · obtain ⟨last, hl, hc⟩ := append_status_history_getLast now d.status_history m.status.value
    refine ⟨last, ?_, hc⟩
    simp only [update_match_with_history]
    rw [trimHist_getLast?]
    exact hl

/-- Merging a match into a document that is already fresh for it changes no
history sequence. -/
theorem update_match_with_history_noop (now : String) (d : MatchDoc) (m : Match)
    (h : doc_fresh d m) :
    (update_match_with_history now d m).score_history = d.score_history ∧
    (update_match_with_history now d m).odds_history = d.odds_history ∧
    (update_match_with_history now d m).status_history = d.status_history := by
  obtain ⟨hs, ho, ⟨lastT, hlT, hcT⟩, hbs, hbo, hbt⟩ := h
  refine ⟨?_, ?_, ?_⟩
  · cases hms : m.score with
    | none =>
      simp only [update_match_with_history, hms]
      exact trimHist_of_le hbs
    | some s =>
      obtain ⟨last, hl, hc⟩ := hs s hms
      simp only [update_match_with_history, hms]
      rw [append_score_history_some now d.score_history s last hl,
          if_neg (by simp [hc])]
      exact trimHist_of_le hbs
  · cases hmo : m.odds with
    | none =>
      simp only [update_match_with_history, hmo]
      exact trimHist_of_le hbo
    | some o =>
      obtain ⟨last, hl, hc⟩ := ho o hmo
      simp only [update_match_with_history, hmo]
      rw [append_odds_history_some now d.odds_history o last hl,
          if_neg (by simp [hc])]
      exact trimHist_of_le hbo
  · simp only [update_match_with_history]
    rw [append_status_history_some now d.status_history m.status.value lastT hlT,
        if_neg (by simp [hcT])]
    exact trimHist_of_le hbt

theorem store_one_of_none (now : String) (store : Store) (m : Match)
    (h : store m.match_id = none) :
    store_one now store m = upsert_item store (match_to_document now m) := by
  unfold store_one get_match
  rw [h]

theorem store_one_of_some (now : String) (store : Store) (m : Match) (d : MatchDoc)
    (h : store m.match_id = some d) :
    store_one now store m = upsert_item store (update_match_with_history now d m) := by
  unfold store_one get_match
  rw [h]

theorem upsert_item_lookup_self (store : Store) (doc : MatchDoc) :
    get_match (upsert_item store doc) doc.match_id = some doc := by
  unfold get_match upsert_item
  rw [if_pos rfl]

/-- One merge always leaves a document under the match identifier, keyed
correctly and fresh for the merged match. -/
theorem store_one_lookup (now : String) (store : Store) (m : Match)
    (hwf : ∀ d, store m.match_id = some d → d.match_id = m.match_id) :
    ∃ d1, get_match (store_one now store m) m.match_id = some d1 ∧
      d1.match_id = m.match_id ∧ doc_fresh d1 m := by
  cases h0 : store m.match_id with
  | none =>
    refine ⟨match_to_document now m, ?_, rfl, match_to_document_fresh now m⟩
    rw [store_one_of_none now store m h0]
    exact upsert_item_lookup_self store (match_to_document now m)
  | some e =>
    have hme : e.match_id = m.match_id := hwf e h0
    refine ⟨update_match_with_history now e m, ?_, hme, update_match_with_history_fresh now e m⟩
    rw [store_one_of_some now store m e h0, ← hme]
    exact upsert_item_lookup_self store (update_match_with_history now e m)

/-- C1: merging the same entity twice in a row is idempotent for history —
for every entity and every (correctly keyed) store state, a first merge
leaves a document for the entity, and a second merge of the same entity
leaves all three history sequences of that document unchanged, because each
facet is compared against the last history entry by a predicate that
ignores the timestamp field. -/
theorem merge_twice_idempotent_history (now1 now2 : String) (store : Store) (m : Match)
    (hwf : ∀ d, store m.match_id = some d → d.match_id = m.match_id) :
    (get_match (store_one now1 store m) m.match_id).isSome = true ∧
    (get_match (store_one now2 (store_one now1 store m) m) m.match_id).map
        (fun d => (d.score_history, d.odds_history, d.status_history)) =
      (get_match (store_one now1 store m) m.match_id).map
        (fun d => (d.score_history, d.odds_history, d.status_history)) := by
  obtain ⟨d1, h1, hid1, hf1⟩ := store_one_lookup now1 store m hwf
  have h2 : get_match (store_one now2 (store_one now1 store m) m) m.match_id =
      some (update_match_with_history now2 d1 m) := by
    rw [store_one_of_some now2 (store_one now1 store m) m d1 h1, ← hid1]
    exact upsert_item_lookup_self (store_one now1 store m) (update_match_with_history now2 d1 m)
  obtain ⟨e1, e2, e3⟩ := update_match_with_history_noop now2 d1 m hf1
  refine ⟨by rw [h1]; rfl, ?_⟩
  rw [h1, h2]
  simp only [Option.map]
  rw [e1, e2, e3]

/-- Witness for C1 at a concrete match and the empty store. -/
theorem merge_twice_idempotent_history_witness :
    (get_match (store_one "t1" emptyStore mEx) mEx.match_id).isSome = true ∧
    (get_match (store_one "t2" (store_one "t1" emptyStore mEx) mEx) mEx.match_id).map
        (fun d => (d.score_history, d.odds_history, d.status_history)) =
      (get_match (store_one "t1" emptyStore mEx) mEx.match_id).map
        (fun d => (d.score_history, d.odds_history, d.status_history)) :=
  merge_twice_idempotent_history "t1" "t2" emptyStore mEx
    (fun _ h => Option.noConfusion h)

/-- C8: round trip through the store — merging an entity whose identifier has
no record yet and reading the record back by that identifier yields a
document whose current snapshot fields (identifier, both participants,
status, score, odds, start time, grouping label) equal the input entity's
fields exactly. -/
theorem merge_read_round_trip (now : String) (store : Store) (m : Match)
    (h : store m.match_id = none) :
    (get_match (store_one now store m) m.match_id).map
        (fun d => (d.match_id, d.player1, d.player2, d.status, d.score, d.odds,
                   d.start_time, d.league)) =
      some (m.match_id, m.player1, m.player2, m.status.value, m.score, m.odds,
            m.start_time, m.league) := by
  rw [store_one_of_none now store m h]
  have hl : get_match (upsert_item store (match_to_document now m)) m.match_id
      = some (match_to_document now m) :=
    upsert_item_lookup_self store (match_to_document now m)
  rw [hl]
  rfl

/-- Witness for C8 at a concrete match and the empty store. -/
theorem merge_read_round_trip_witness :
    (get_match (store_one "t1" emptyStore mEx) mEx.match_id).map
        (fun d => (d.match_id, d.player1, d.player2, d.status, d.score, d.odds,
                   d.start_time, d.league)) =
      some (mEx.match_id, mEx.player1, mEx.player2, mEx.status.value, mEx.score,
            mEx.odds, mEx.start_time, mEx.league) :=
  merge_read_round_trip "t1" emptyStore mEx rfl

/-- C3: the batch merge never aborts because one record failed — every entity
of the batch is processed, a failing identifier is skipped and excluded
from the count, and the returned count is exactly the number of entities
successfully persisted, the store ending as the fold of the successful
merges. -/
theorem store_matches_never_aborts (now : String) (fails : Match → Bool)
    (store : Store) (ms : List Match) :
    (store_matches now fails store ms).2 = (ms.filter (fun m => !fails m)).length ∧
    (store_matches now fails store ms).1 =
      (ms.filter (fun m => !fails m)).foldl (fun st mm => store_one now st mm) store := by
  induction ms generalizing store with
  | nil => exact ⟨rfl, rfl⟩
  | cons m rest ih =>
    obtain ⟨ihc1, ihs1⟩ := ih store
    obtain ⟨ihc2, ihs2⟩ := ih (store_one now store m)
    by_cases hm : fails m
    · simp [store_matches, hm, List.filter_cons, ihc1, ihs1]
    · simp [store_matches, hm, List.filter_cons, ihc2, ihs2]

theorem odds_changed_entry_differ (t : String) (a b : Odds) :
    odds_changed (odds_entry t a) b = odds_differ a b := rfl

/-- Invariant of the repeated-merge fold: once a correctly keyed document for
the identifier holds odds history trimHist E whose last entry snapshots
prev, merging a run of observations that each differ from their
predecessor appends one entry per observation, keeping the trailing
max_history_entries of the full entry sequence. -/
theorem merge_seq_odds_spec (m : Match) :
    ∀ (l : List (String × Odds)) (store : Store) (d : MatchDoc)
      (E : List OddsHistEntry) (tp : String) (prev : Odds),
      store m.match_id = some d →
      d.match_id = m.match_id →
      d.odds_history = trimHist E →
      E.getLast? = some (odds_entry tp prev) →
      List.Chain' (fun a b => odds_differ a b = true) (prev :: l.map Prod.snd) →
      ∃ d', (merge_seq m store l) m.match_id = some d' ∧
        d'.odds_history = trimHist (E ++ l.map (fun p => odds_entry p.1 p.2))
  | [], store, d, E, tp, prev, hstore, hid, hE, hlast, hch => by
    refine ⟨d, hstore, ?_⟩
    rw [hE]
    simp [merge_seq]
  | (t, o) :: rest, store, d, E, tp, prev, hstore, hid, hE, hlast, hch => by
    have hmap : (((t, o) :: rest).map Prod.snd) = o :: rest.map Prod.snd := by simp
    rw [hmap] at hch
    obtain ⟨hpo, htail⟩ := List.chain'_cons.mp hch
    have hupd : store_one t store { m with odds := some o } =
        upsert_item store (update_match_with_history t d { m with odds := some o }) :=
      store_one_of_some t store { m with odds := some o } d hstore
    have hd1odds : (update_match_with_history t d { m with odds := some o }).odds_history =
        trimHist (E ++ [odds_entry t o]) := by
      simp only [update_match_with_history]
      rw [hE]
      rw [append_odds_history_some t (trimHist E) o (odds_entry tp prev)
            (by rw [trimHist_getLast?]; exact hlast)]
      rw [if_pos (by rw [odds_changed_entry_differ]; exact hpo)]
      exact trimHist_append_singleton E (odds_entry t o)
    have hlook : (store_one t store { m with odds := some o }) m.match_id =
        some (update_match_with_history t d { m with odds := some o }) := by
      rw [hupd, ← hid]
      exact upsert_item_lookup_self store (update_match_with_history t d { m with odds := some o })
    have hstep : merge_seq m store ((t, o) :: rest) =
        merge_seq m (store_one t store { m with odds := some o }) rest := rfl
    obtain ⟨d', hd', hodds⟩ :=
      merge_seq_odds_spec m rest (store_one t store { m with odds := some o })
        (update_match_with_history t d { m with odds := some o })
        (E ++ [odds_entry t o]) t o hlook hid hd1odds
        (by rw [List.getLast?_concat]) htail
    refine ⟨d', by rw [hstep]; exact hd', ?_⟩
    rw [hodds]
    congr 1
    simp

/-- C2: bounded history — merging 150 odds observations one at a time, each
differing from its predecessor in at least one of the eight compared
fields, leaves an odds history of length exactly the cap 100 holding the
100 most recent entries in their original append order. -/
theorem odds_history_cap_150 (m : Match) (ts : List String) (os : List Odds)
    (hts : ts.length = 150) (hos : os.length = 150)
    (hch : List.Chain' (fun a b => odds_differ a b = true) os) :
    ((merge_seq m emptyStore (ts.zip os)) m.match_id).map (fun d => d.odds_history) =
      some (((ts.zip os).map (fun p => odds_entry p.1 p.2)).drop 50) ∧
    ((merge_seq m emptyStore (ts.zip os)) m.match_id).map (fun d => d.odds_history.length) =
      some 100 := by
  match ts, os with
  | t0 :: ts', o0 :: os' =>
    have hts' : ts'.length = 149 := by simpa using hts
    have hos' : os'.length = 149 := by simpa using hos
    have hzip : (t0 :: ts').zip (o0 :: os') = (t0, o0) :: ts'.zip os' := rfl
    have hcreate : store_one t0 emptyStore { m with odds := some o0 } =
        upsert_item emptyStore (match_to_document t0 { m with odds := some o0 }) :=
      store_one_of_none t0 emptyStore { m with odds := some o0 } rfl
    have hlook : (store_one t0 emptyStore { m with odds := some o0 }) m.match_id =
        some (match_to_document t0 { m with odds := some o0 }) := by
      rw [hcreate]
      exact upsert_item_lookup_self emptyStore (match_to_document t0 { m with odds := some o0 })
    have h0odds : (match_to_document t0 { m with odds := some o0 }).odds_history =
        trimHist [odds_entry t0 o0] := by
      rw [trimHist_of_le (by simp [max_history_entries])]
      rfl
    have hsnd : (ts'.zip os').map Prod.snd = os' := by
      apply List.map_snd_zip
      omega
    obtain ⟨d', hd', hodds⟩ :=
      merge_seq_odds_spec m (ts'.zip os') (store_one t0 emptyStore { m with odds := some o0 })
        (match_to_document t0 { m with odds := some o0 })
        [odds_entry t0 o0] t0 o0 hlook rfl h0odds (by simp)
        (by rw [hsnd]; exact hch)
    have hstep : merge_seq m emptyStore ((t0 :: ts').zip (o0 :: os')) =
        merge_seq m (store_one t0 emptyStore { m with odds := some o0 }) (ts'.zip os') := rfl
    have hfull : [odds_entry t0 o0] ++ (ts'.zip os').map (fun p => odds_entry p.1 p.2) =
        ((t0 :: ts').zip (o0 :: os')).map (fun p => odds_entry p.1 p.2) := by
      rw [hzip]
      simp
    have hflen : (((t0 :: ts').zip (o0 :: os')).map (fun p => odds_entry p.1 p.2)).length = 150 := by
      rw [List.length_map, List.length_zip]
      simp [hts', hos']
    have htrim : trimHist (((t0 :: ts').zip (o0 :: os')).map (fun p => odds_entry p.1 p.2)) =
        (((t0 :: ts').zip (o0 :: os')).map (fun p => odds_entry p.1 p.2)).drop 50 := by
      unfold trimHist
      rw [hflen]
      simp [max_history_entries]
    rw [hfull, htrim] at hodds
    rw [hstep, hd']
    simp only [Option.map]
    refine ⟨by rw [hodds], ?_⟩
    rw [hodds, List.length_drop, hflen]

theorem chainDiffer_iff (l : List Odds) :
    chainDiffer l = true ↔ List.Chain' (fun a b => odds_differ a b = true) l := by
  match l with
  | [] => simp [chainDiffer]
  | [_] => simp [chainDiffer]
  | a :: b :: rest =>
    rw [List.chain'_cons, ← chainDiffer_iff (b :: rest)]
    simp [chainDiffer]

/-- Witness for C2 at 150 concrete, pairwise-consecutively-distinct odds
observations. -/
theorem odds_history_cap_150_witness :
    tsEx.length = 150 ∧ osEx.length = 150 ∧
    List.Chain' (fun a b => odds_differ a b = true) osEx ∧
    (((merge_seq mEx emptyStore (tsEx.zip osEx)) mEx.match_id).map
        (fun d => d.odds_history) =
      some (((tsEx.zip osEx).map (fun p => odds_entry p.1 p.2)).drop 50) ∧
    ((merge_seq mEx emptyStore (tsEx.zip osEx)) mEx.match_id).map
        (fun d => d.odds_history.length) = some 100) :=
  ⟨by simp [tsEx], by simp [osEx],
   (chainDiffer_iff osEx).mp (by decide),
   odds_history_cap_150 mEx tsEx osEx (by simp [tsEx]) (by simp [osEx])
     ((chainDiffer_iff osEx).mp (by decide))⟩

theorem score_signal_iff (c : Container) :
    (c.score_containers.any (fun sc =>
        ((sc.elems.filter (fun e => e.score)).map (fun e => e.text)).any
          (fun v => pyIsdigit v && v != "0")) = true)
    ↔ ∃ v ∈ container_score_values c, pyIsdigit v = true ∧ v ≠ "0" := by
  unfold container_score_values
  constructor
  · intro hany
    obtain ⟨sc, hsc, hinner⟩ := List.any_eq_true.mp hany
    obtain ⟨v, hv, hp⟩ := List.any_eq_true.mp hinner
    simp only [Bool.and_eq_true, bne_iff_ne, ne_eq] at hp
    exact ⟨v, List.mem_flatten.mpr ⟨_, List.mem_map.mpr ⟨sc, hsc, rfl⟩, hv⟩, hp.1, hp.2⟩
  · rintro ⟨v, hvmem, hd, hne⟩
    obtain ⟨l, hl, hv⟩ := List.mem_flatten.mp hvmem
    obtain ⟨sc, hsc, rfl⟩ := List.mem_map.mp hl
    exact List.any_eq_true.mpr ⟨sc, hsc, List.any_eq_true.mpr
      ⟨v, hv, by simp only [Bool.and_eq_true, bne_iff_ne, ne_eq]; exact ⟨hd, hne⟩⟩⟩

theorem extract_match_status_no_icon_no_kw (c : Container)
    (h : c.live_icon = false)
    (hkw : ∀ t, c.game_time_status = some t →
      strContains t.toLower "set" = false ∧ strContains t.toLower "game" = false) :
    extract_match_status c =
      if c.score_containers.any (fun sc =>
          ((sc.elems.filter (fun e => e.score)).map (fun e => e.text)).any
            (fun v => pyIsdigit v && v != "0")) then .live else .upcoming := by
  unfold extract_match_status
  cases hgts : c.game_time_status with
  | none => simp [h]
  | some t => simp [h, (hkw t hgts).1, (hkw t hgts).2]

/-- C4: status precedence — a live indicator always wins (regardless of the
score values), then a segment/game keyword in the status text, then a
numeric score value other than "0"; a container with neither indicator nor
keyword whose score values are all "0" is upcoming, never live. -/
theorem status_precedence (c : Container) :
    (c.live_icon = true → extract_match_status c = .live) ∧
    (c.live_icon = false →
      (∃ t, c.game_time_status = some t ∧
        (strContains t.toLower "set" = true ∨ strContains t.toLower "game" = true)) →
      extract_match_status c = .live) ∧
    (c.live_icon = false →
      (∀ t, c.game_time_status = some t →
        strContains t.toLower "set" = false ∧ strContains t.toLower "game" = false) →
      (∃ v ∈ container_score_values c, pyIsdigit v = true ∧ v ≠ "0") →
      extract_match_status c = .live) ∧
    (c.live_icon = false →
      (∀ t, c.game_time_status = some t →
        strContains t.toLower "set" = false ∧ strContains t.toLower "game" = false) →
      (∀ v ∈ container_score_values c, v = "0") →
      extract_match_status c = .upcoming) := by
  refine ⟨?_, ?_, ?_, ?_⟩
  · intro h
    unfold extract_match_status
    simp [h]
  · rintro h ⟨t, ht, hk⟩
    unfold extract_match_status
    rcases hk with hk | hk <;> simp [h, ht, hk]
  · intro h hkw hsig
    rw [extract_match_status_no_icon_no_kw c h hkw]
    rw [if_pos ((score_signal_iff c).mpr hsig)]
  · intro h hkw hzero
    rw [extract_match_status_no_icon_no_kw c h hkw]
    rw [if_neg]
    intro hsig
    obtain ⟨v, hv, _, hne⟩ := (score_signal_iff c).mp hsig
    exact hne (hzero v hv)

/-- Witness for C4: the live indicator wins over a zero-only score, and a
zero-only score without indicator or keyword yields upcoming. -/
theorem status_precedence_witness :
    extract_match_status cLiveIconEx = .live ∧
    extract_match_status cZeroEx = .upcoming :=
  ⟨(status_precedence cLiveIconEx).1 rfl,
   (status_precedence cZeroEx).2.2.2 rfl
     (fun _ ht => Option.noConfusion ht)
     (by decide)⟩

/-- C7 counterexample: a container carrying a data-match-id attribute (with
the empty-string value markup like data-match-id="" produces) together
with a tooltip-embedded numeric ID is resolved to the tooltip prefix, not
the attribute value — Python truthiness skips empty attribute values. -/
theorem id_attr_counterexample :
    cEmptyAttrEx.attrs "data-match-id" = some "" ∧
    extract_match_id (fun _ => 0) cEmptyAttrEx = "123" ∧
    extract_match_id (fun _ => 0) cEmptyAttrEx ≠ "" := by
  refine ⟨rfl, by decide, by decide⟩

/-- C7 (amended): identifier fallback priority — an identifier attribute with
a non-empty value is used first (in particular data-match-id beats a
tooltip-embedded numeric ID); when every identifier attribute is absent or
empty, the numeric prefix of the first tooltip attribute is used when it
parses; with no tooltip control at all, the hash of the visible text is
used. -/
theorem id_priority_amended (pyhash : String → Int) (c : Container) :
    (∀ v, c.attrs "data-match-id" = some v → v ≠ "" →
      extract_match_id pyhash c = v) ∧
    ((∀ a ∈ ["data-match-id", "data-event-id", "data-game-id", "id"],
        c.attrs a = none ∨ c.attrs a = some "") →
      ∀ tid rest, c.tooltip_ids = tid :: rest → tid ≠ "" →
        strContains tid "-" = true →
        pyIsdigit (splitDashHead tid) = true →
        extract_match_id pyhash c = splitDashHead tid) ∧
    ((∀ a ∈ ["data-match-id", "data-event-id", "data-game-id", "id"],
        c.attrs a = none ∨ c.attrs a = some "") →
      c.tooltip_ids = [] →
      extract_match_id pyhash c = (toString (pyhash c.text)).take 10) := by
  have hkey : ∀ (hemp : ∀ a ∈ ["data-match-id", "data-event-id", "data-game-id", "id"],
      c.attrs a = none ∨ c.attrs a = some ""),
      (["data-match-id", "data-event-id", "data-game-id", "id"].findSome?
        (fun a => match c.attrs a with
          | some v => if v = "" then none else some v
          | none => none)) = none := by
    intro hemp
    rw [List.findSome?_eq_none_iff]
    intro a ha
    rcases hemp a ha with h | h <;> simp [h]
  refine ⟨?_, ?_, ?_⟩
  · intro v hattr hv
    unfold extract_match_id
    rw [List.findSome?_cons]
    simp only [hattr]
    rw [if_neg hv]
  · intro hemp tid rest htid hne hdash hdig
    unfold extract_match_id
    rw [hkey hemp, htid]
    simp only []
    rw [if_pos (by simp [hne, hdash]), if_pos hdig]
  · intro hemp htid
    unfold extract_match_id
    rw [hkey hemp, htid]

/-- Witness for C7 (amended): a non-empty data-match-id attribute beats the
tooltip ID; the empty-attribute container resolves to the tooltip prefix;
without tooltip controls the text hash is used. -/
theorem id_priority_amended_witness :
    extract_match_id (fun _ => 7) cAttrEx = "42" ∧
    extract_match_id (fun _ => 7) cEmptyAttrEx = "123" ∧
    extract_match_id (fun _ => 7) cZeroEx = "7" :=
  ⟨(id_priority_amended (fun _ => 7) cAttrEx).1 "42" rfl (by decide),
   ((id_priority_amended (fun _ => 7) cEmptyAttrEx).2.1
     (by intro a ha; fin_cases ha <;> simp [cEmptyAttrEx])
     "123-456" [] rfl (by decide) (by decide) (by decide)).trans (by decide),
   (id_priority_amended (fun _ => 7) cZeroEx).2.2
     (by intro a ha; fin_cases ha <;> simp [cZeroEx]) rfl⟩

theorem pad_zip (n : Nat) :
    ∀ (s1 s2 : List String), s1.length ≤ n → s2.length ≤ n →
      (s1 ++ List.replicate (n - s1.length) "0").zip
        (s2 ++ List.replicate (n - s2.length) "0") =
      (List.range n).map (fun i => (s1.getD i "0", s2.getD i "0")) := by
  induction n with
  | zero =>
    intro s1 s2 h1 h2
    have e1 : s1 = [] := List.eq_nil_of_length_eq_zero (Nat.le_zero.mp h1)
    have e2 : s2 = [] := List.eq_nil_of_length_eq_zero (Nat.le_zero.mp h2)
    subst e1
    subst e2
    rfl
  | succ n ih =>
    intro s1 s2 h1 h2
    have hstep : ∀ (s : List String), s.length ≤ n + 1 →
        s ++ List.replicate (n + 1 - s.length) "0" =
          s.headD "0" :: (s.tail ++ List.replicate (n - s.tail.length) "0") := by
      intro s _
      cases s with
      | nil => simp [List.replicate_succ]
      | cons a t => simp [Nat.succ_sub_succ]
    rw [hstep s1 h1, hstep s2 h2]
    rw [List.zip_cons_cons]
    rw [ih s1.tail s2.tail
          (by cases s1 <;> simp at h1 ⊢ <;> omega)
          (by cases s2 <;> simp at h2 ⊢ <;> omega)]
    rw [List.range_succ_eq_map, List.map_cons, List.map_map]
    congr 1
    · cases s1 <;> cases s2 <;> rfl
    · apply List.map_congr_left
      intro i _
      cases s1 <;> cases s2 <;> simp

/-- The spec-side padded zip agrees with the code's index loop over
range(max_sets). -/
theorem zip_segment_scores_eq (s1 s2 : List String) :
    zip_segment_scores s1 s2 = range_segment_scores s1 s2 := by
  unfold zip_segment_scores range_segment_scores
  rw [pad_zip (max s1.length s2.length) s1 s2 (Nat.le_max_left _ _) (Nat.le_max_right _ _)]
  rw [List.filterMap_map]
  congr 1
  funext i
  by_cases hA : s1[i]?.getD "0" = "0" <;> by_cases hB : s2[i]?.getD "0" = "0" <;>
    simp [List.getD, hA, hB]

theorem extract_score_cons (c : Container) (s1 s2 : List String)
    (rest : List (List String))
    (hsets : c.score_containers.map segment_texts = s1 :: s2 :: rest) :
    extract_score c =
      (let set_scores := range_segment_scores s1 s2
       if set_scores.isEmpty then none
       else
         let current_set : Int := set_scores.length
         let current_set := match c.game_time_status with
           | some txt =>
             if strContains txt.toLower "set" then
               match firstDigitRun txt with
               | some n => (n : Int)
               | none => current_set
             else current_set
           | none => current_set
         some { current_set := current_set, set_scores := set_scores,
                total_games := none }) := by
  unfold extract_score
  rw [hsets]

/-- C5: score formatting — with two score containers holding the two
participants' per-segment sequences and no status-text override, the
extracted score zips the sequences position-wise into "p1-p2" strings,
omits positions where both sides are "0", and sets the current segment to
the number of emitted strings (none at all meaning no score). -/
theorem score_formatting (c : Container) (s1 s2 : List String)
    (rest : List (List String))
    (hsets : c.score_containers.map segment_texts = s1 :: s2 :: rest)
    (hgts : c.game_time_status = none) :
    extract_score c =
      (if zip_segment_scores s1 s2 = [] then none
       else some { current_set := ((zip_segment_scores s1 s2).length : Int),
                   set_scores := zip_segment_scores s1 s2,
                   total_games := none }) := by
  rw [extract_score_cons c s1 s2 rest hsets, hgts, ← zip_segment_scores_eq s1 s2]
  by_cases h : zip_segment_scores s1 s2 = []
  · simp [h]
  · simp [h, List.isEmpty_iff]

/-- Witness for C5: segment sequences p1 = ["6","3"], p2 = ["4","6"] with no
status-text override produce set scores ["6-4","3-6"] and current
segment 2. -/
theorem score_formatting_witness :
    cScoreEx.game_time_status = none ∧
    extract_score cScoreEx =
      some { current_set := 2, set_scores := ["6-4", "3-6"], total_games := none } :=
  ⟨rfl,
   (score_formatting cScoreEx ["6", "3"] ["4", "6"] [] rfl rfl).trans (by decide)⟩

/-- C6: extraction never aborts on a single malformed entity — whenever the
markup parses into a document at all the result is a plain (possibly
empty) list; a container on which parsing raises is skipped while the
surrounding containers still contribute; only a document-level parse
failure raises ParseError; and when neither the primary selector nor any
fallback selector matches, the result is the empty list. -/
theorem parse_never_aborts (ex : SubExtractors) (pyhash : String → Int) :
    (∀ sp : Soup, parse_html ex pyhash (.ok sp) =
      .ok (collect_matches ex pyhash (find_match_containers sp))) ∧
    (∀ (pre post : List ContainerB) (msg : String) (fbs : List (List ContainerB)),
      parse_html ex pyhash (.ok ⟨pre ++ .bad msg :: post, fbs⟩) =
        .ok (collect_matches ex pyhash pre ++ collect_matches ex pyhash post)) ∧
    (∀ msg, parse_html ex pyhash (.error msg) =
      .error ("Failed to parse HTML content: " ++ msg)) ∧
    (∀ fbs : List (List ContainerB), (∀ l ∈ fbs, l = []) →
      parse_html ex pyhash (.ok ⟨[], fbs⟩) = .ok []) := by
  refine ⟨fun sp => rfl, ?_, fun msg => rfl, ?_⟩
  · intro pre post msg fbs
    have h0 : parse_html ex pyhash (.ok ⟨pre ++ .bad msg :: post, fbs⟩) =
        .ok (collect_matches ex pyhash
          (find_match_containers ⟨pre ++ .bad msg :: post, fbs⟩)) := rfl
    have hfind : find_match_containers ⟨pre ++ .bad msg :: post, fbs⟩ =
        pre ++ .bad msg :: post := by
      unfold find_match_containers
      simp
    rw [h0, hfind]
    unfold collect_matches
    rw [List.filterMap_append]
    simp [parse_match_containerB]
  · intro fbs hfbs
    have hnone : fbs.find? (fun l => !l.isEmpty) = none :=
      List.find?_eq_none.mpr (fun l hl => by simp [hfbs l hl])
    have h0 : parse_html ex pyhash (.ok ⟨[], fbs⟩) =
        .ok (collect_matches ex pyhash (find_match_containers ⟨[], fbs⟩)) := rfl
    have hfind : find_match_containers ⟨[], fbs⟩ = [] := by
      unfold find_match_containers
      simp [hnone]
    rw [h0, hfind]
    rfl

/-- Witness for C6: a batch of one raising container and one skipped-over
container yields the empty list, as does a document where no selector
matches. -/
theorem parse_never_aborts_witness :
    parse_html ⟨fun _ => [], fun _ => none, fun _ => none, fun _ => none⟩ (fun _ => 0)
        (.ok ⟨[ContainerB.bad "boom", ContainerB.good cZeroEx], []⟩) = .ok [] ∧
    parse_html ⟨fun _ => [], fun _ => none, fun _ => none, fun _ => none⟩ (fun _ => 0)
        (.ok ⟨[], [[]]⟩) = .ok [] :=
  ⟨by
    have h := (parse_never_aborts
      ⟨fun _ => [], fun _ => none, fun _ => none, fun _ => none⟩ (fun _ => 0)).2.1
      [] [ContainerB.good cZeroEx] "boom" []
    simpa [collect_matches, parse_match_containerB, parse_match_container] using h,
   (parse_never_aborts
      ⟨fun _ => [], fun _ => none, fun _ => none, fun _ => none⟩ (fun _ => 0)).2.2.2
      [[]] (by intro l hl; simpa using hl)⟩

theorem extract_match_status_live_or_upcoming (c : Container) :
    extract_match_status c = .live ∨ extract_match_status c = .upcoming := by
  unfold extract_match_status
  repeat' split
  all_goals simp

/-- C10: every entity produced by the parse pipeline has status live or
upcoming; the extractor never emits the status "ended", so "ended" can
never enter a record's status history through the extract-then-merge
path. -/
theorem parse_status_never_ended (ex : SubExtractors) (pyhash : String → Int)
    (sp : Soup) (ms : List Match) (m : Match)
    (hp : parse_html ex pyhash (.ok sp) = .ok ms) (hm : m ∈ ms) :
    (m.status = .live ∨ m.status = .upcoming) ∧ m.status ≠ .ended := by
  have hms : collect_matches ex pyhash (find_match_containers sp) = ms := by
    simpa [parse_html] using hp
  rw [← hms] at hm
  unfold collect_matches at hm
  obtain ⟨cb, _, hsome⟩ := List.mem_filterMap.mp hm
  cases cb with
  | bad msg => simp [parse_match_containerB] at hsome
  | good c =>
    simp only [parse_match_containerB] at hsome
    unfold parse_match_container at hsome
    have hstat : m.status = extract_match_status c := by
      cases hpl : ex.extract_players c with
      | nil => rw [hpl] at hsome; simp at hsome
      | cons p1 tl =>
        cases tl with
        | nil => rw [hpl] at hsome; simp at hsome
        | cons p2 tl2 =>
          cases tl2 with
          | nil =>
            rw [hpl] at hsome
            simp only [Option.some.injEq] at hsome
            rw [← hsome]
          | cons p3 tl3 => rw [hpl] at hsome; simp at hsome
    rw [hstat]
    refine ⟨extract_match_status_live_or_upcoming c, ?_⟩
    rcases extract_match_status_live_or_upcoming c with h | h <;> simp [h]

/-- Witness for C10: a one-container document parses to one live entity. -/
theorem parse_status_never_ended_witness :
    (mW.status = .live ∨ mW.status = .upcoming) ∧ mW.status ≠ .ended :=
  parse_status_never_ended exW (fun _ => 0) ⟨[ContainerB.good cLiveIconEx], []⟩
    [mW] mW (by rfl) (by simp)

/-- C9: wake-interval selection — if at least one entity of the last
observation is live the short (live) interval is chosen, and if no entity
is live (including the empty observation) the long (upcoming) interval is
chosen. -/
theorem refresh_interval_selection (live_refresh_interval upcoming_refresh_interval : Nat)
    (last_matches : List Match) :
    ((∃ m ∈ last_matches, m.is_live = true) →
      get_refresh_interval live_refresh_interval upcoming_refresh_interval last_matches
        = live_refresh_interval) ∧
    ((∀ m ∈ last_matches, m.is_live = false) →
      get_refresh_interval live_refresh_interval upcoming_refresh_interval last_matches
        = upcoming_refresh_interval) := by
  constructor
  · rintro ⟨m, hm, hlive⟩
    unfold get_refresh_interval
    rw [if_neg (by simp [List.isEmpty_iff]; exact fun h => by simp [h] at hm)]
    rw [if_pos (List.any_eq_true.mpr ⟨m, hm, hlive⟩)]
  · intro hall
    unfold get_refresh_interval
    by_cases he : last_matches.isEmpty
    · rw [if_pos he]
    · rw [if_neg he]
      rw [if_neg (by rw [List.any_eq_true]; rintro ⟨m, hm, hlive⟩; rw [hall m hm] at hlive; exact Bool.noConfusion hlive)]

/-- Witness for C9: one live match selects the short interval, no match
selects the long one. -/
theorem refresh_interval_selection_witness :
    get_refresh_interval 15 180 [mEx] = 15 ∧ get_refresh_interval 15 180 [] = 180 :=
  ⟨(refresh_interval_selection 15 180 [mEx]).1 ⟨mEx, by simp, by decide⟩,
   (refresh_interval_selection 15 180 []).2 (by simp)⟩

end HardRock
